import Mathlib

/-!
Shallow embedding of the fantasy-football aggregation / risk / validation core
(`src/data/processors/risk_calculator.py`, `src/data/processors/aggregator.py`,
`src/data/scrapers/constants.py`, `src/data/validators/data_quality.py`)
together with proofs settling the frozen claims C1-C10.

Python `float` values are modelled as `ℚ` (or `ℝ` where the source takes a real
square root), Python `int` as `ℤ`, Python dicts as insertion-ordered association
lists, and functions that can raise as `Except`-valued functions.
-/

set_option maxHeartbeats 1000000

namespace FF

/-! ### Python numeric primitives -/

/-- Python `round(x*10^n)/10^n` core: round-half-to-even (banker's rounding) to an
integer, as performed by Python's builtin `round`. -/
def rhe {α : Type} [LinearOrderedField α] [FloorRing α] (x : α) : ℤ :=
  if x - ⌊x⌋ < 1/2 then ⌊x⌋
  else if (1:α)/2 < x - ⌊x⌋ then ⌊x⌋ + 1
  else if ⌊x⌋ % 2 = 0 then ⌊x⌋ else ⌊x⌋ + 1

/-- Python `round(x, n)`: round to `n` decimal digits, ties to even. -/
def pyRound {α : Type} [LinearOrderedField α] [FloorRing α] (n : ℕ) (x : α) : α :=
  (rhe (x * 10 ^ n) : α) / 10 ^ n

/-- Python `int(x)` on a float: truncation toward zero. -/
def pyTrunc (q : ℚ) : ℤ := if 0 ≤ q then ⌊q⌋ else ⌈q⌉

/-- Lookup in a Python dict literal modelled as an association list:
`d.get(k, dflt)`. -/
def dictGet {β : Type} (d : List (String × β)) (k : String) (dflt : β) : β :=
  match d.find? (fun kv => kv.1 == k) with
  | some kv => kv.2
  | none => dflt

/-- Python `str.lower()` (ASCII range, as used by the sources). -/
def lowerStr (s : String) : String := String.mk (s.data.map Char.toLower)

/-- Python `str.upper()` (ASCII range, as used by the sources). -/
def upperStr (s : String) : String := String.mk (s.data.map Char.toUpper)

/-! ### risk_calculator.py -/

/-- Age thresholds by position (`AGE_THRESHOLDS`). -/
def AGE_THRESHOLDS : List (String × ℤ) :=
  [("QB", 35), ("RB", 27), ("WR", 30), ("TE", 30), ("K", 38), ("DST", 99)]

/-- Position risk factors (`POSITION_RISK`). -/
def POSITION_RISK : List (String × ℚ) :=
  [("QB", 0.2), ("RB", 0.7), ("WR", 0.4), ("TE", 0.5), ("K", 0.1), ("DST", 0.1)]

/-- Injury status risk multipliers (`STATUS_RISK`). -/
def STATUS_RISK : List (String × ℚ) :=
  [("healthy", 0.0), ("questionable", 0.3), ("out", 0.5), ("injured", 0.5), ("ir", 0.8)]

/-- `calculate_injury_score` from `risk_calculator.py` (lines 50-90). -/
def calculate_injury_score (games_played : ℤ × ℤ × ℤ) (age : Option ℤ)
    (position : String) (current_status : String) : ℤ :=
  let total_games : ℤ := games_played.1 + games_played.2.1 + games_played.2.2
  let max_games : ℚ := 17 * 3
  let games_missed_pct : ℚ := if 0 < max_games then 1 - (total_games : ℚ) / max_games else 0
  let base_score : ℚ := games_missed_pct * 50
  let pos_risk : ℚ := dictGet POSITION_RISK position 0.3
  let pos_score : ℚ := pos_risk * 20
  let age_score : ℤ :=
    match age with
    | none => 0
    | some a =>
        let threshold := dictGet AGE_THRESHOLDS position 30
        if threshold < a then min ((a - threshold) * 3) 15 else 0
  let status_score : ℚ := dictGet STATUS_RISK (lowerStr current_status) 0.0 * 15
  let total : ℤ := pyTrunc (base_score + pos_score + (age_score : ℚ) + status_score)
  min (max total 0) 100

/-- `calculate_consistency_score` from `risk_calculator.py` (lines 93-127).
The source takes `variance ** 0.5`, so the embedding works over `ℝ`. -/
noncomputable def calculate_consistency_score (weekly_points : List ℝ)
    (games_played : ℤ) : ℝ :=
  if games_played = 0 ∨ weekly_points.length = 0 then 0.5
  else
    let active_weeks := weekly_points.filter (fun p => decide (0 < p))
    if active_weeks.length < 2 then 0.5
    else
      let mean := active_weeks.sum / (active_weeks.length : ℝ)
      if mean = 0 then 0.5
      else
        let variance := ((active_weeks.map (fun x => (x - mean) ^ 2)).sum) / (active_weeks.length : ℝ)
        let std_dev := Real.sqrt variance
        let cv := std_dev / mean
        pyRound 3 (max 0.0 (min 1.0 (1.0 - cv)))

/-- Variance factor of `calculate_floor_ceiling` (line 149). -/
def variance_factor (consistency_score : ℚ) : ℚ :=
  0.1 + (1 - consistency_score) * 0.25

/-- Injury factor of `calculate_floor_ceiling` (line 152). -/
def injury_factor (injury_score : ℤ) : ℚ :=
  1 - ((injury_score : ℚ) / 100) * 0.2

/-- Floor before the final 1-digit rounding (line 155). -/
def floorRaw (projected_points consistency_score : ℚ) : ℚ :=
  projected_points * (1 - variance_factor consistency_score)

/-- Ceiling before the final 1-digit rounding (line 154). -/
def ceilingRaw (projected_points consistency_score : ℚ) (injury_score : ℤ) : ℚ :=
  projected_points * (1 + variance_factor consistency_score) * injury_factor injury_score

/-- `calculate_floor_ceiling` from `risk_calculator.py` (lines 130-157). -/
def calculate_floor_ceiling (projected_points consistency_score : ℚ)
    (injury_score : ℤ) : ℚ × ℚ :=
  if projected_points ≤ 0 then (0, 0)
  else (pyRound 1 (floorRaw projected_points consistency_score),
        pyRound 1 (ceilingRaw projected_points consistency_score injury_score))

/-! ### scrapers/constants.py -/

/-- Canonical team abbreviations (`TEAM_ABBREVIATIONS`, a Python set). -/
def TEAM_ABBREVIATIONS : List String :=
  ["ARI", "ATL", "BAL", "BUF", "CAR", "CHI", "CIN", "CLE",
   "DAL", "DEN", "DET", "GB", "HOU", "IND", "JAX", "KC",
   "LAC", "LAR", "LV", "MIA", "MIN", "NE", "NO", "NYG",
   "NYJ", "PHI", "PIT", "SEA", "SF", "TB", "TEN", "WSH"]

/-- Full-name / city to abbreviation table (`TEAM_NAME_TO_ABBR`), in source order. -/
def TEAM_NAME_TO_ABBR : List (String × String) :=
  [("Cardinals", "ARI"), ("Arizona", "ARI"),
   ("Falcons", "ATL"), ("Atlanta", "ATL"),
   ("Ravens", "BAL"), ("Baltimore", "BAL"),
   ("Bills", "BUF"), ("Buffalo", "BUF"),
   ("Panthers", "CAR"), ("Carolina", "CAR"),
   ("Bears", "CHI"), ("Chicago", "CHI"),
   ("Bengals", "CIN"), ("Cincinnati", "CIN"),
   ("Browns", "CLE"), ("Cleveland", "CLE"),
   ("Cowboys", "DAL"), ("Dallas", "DAL"),
   ("Broncos", "DEN"), ("Denver", "DEN"),
   ("Lions", "DET"), ("Detroit", "DET"),
   ("Packers", "GB"), ("Green Bay", "GB"),
   ("Texans", "HOU"), ("Houston", "HOU"),
   ("Colts", "IND"), ("Indianapolis", "IND"),
   ("Jaguars", "JAX"), ("Jacksonville", "JAX"),
   ("Chiefs", "KC"), ("Kansas City", "KC"),
   ("Chargers", "LAC"), ("L.A. Chargers", "LAC"), ("Los Angeles Chargers", "LAC"),
   ("Rams", "LAR"), ("L.A. Rams", "LAR"), ("Los Angeles Rams", "LAR"),
   ("Raiders", "LV"), ("Las Vegas", "LV"),
   ("Dolphins", "MIA"), ("Miami", "MIA"),
   ("Vikings", "MIN"), ("Minnesota", "MIN"),
   ("Patriots", "NE"), ("New England", "NE"),
   ("Saints", "NO"), ("New Orleans", "NO"),
   ("Giants", "NYG"), ("N.Y. Giants", "NYG"), ("New York Giants", "NYG"),
   ("Jets", "NYJ"), ("N.Y. Jets", "NYJ"), ("New York Jets", "NYJ"),
   ("Eagles", "PHI"), ("Philadelphia", "PHI"),
   ("Steelers", "PIT"), ("Pittsburgh", "PIT"),
   ("Seahawks", "SEA"), ("Seattle", "SEA"),
   ("49ers", "SF"), ("San Francisco", "SF"),
   ("Buccaneers", "TB"), ("Tampa Bay", "TB"),
   ("Titans", "TEN"), ("Tennessee", "TEN"),
   ("Commanders", "WSH"), ("Washington", "WSH")]

/-- Legacy abbreviation fixes (`LEGACY_TEAM_FIXES`). -/
def LEGACY_TEAM_FIXES : List (String × String) :=
  [("WAS", "WSH"), ("JAC", "JAX"), ("LA", "LAR")]

/-- Python `str.strip()` on a character list: drop leading and trailing whitespace. -/
def pyStrip (l : List Char) : List Char :=
  ((l.dropWhile Char.isWhitespace).reverse.dropWhile Char.isWhitespace).reverse

/-- `normalize_team` from `constants.py` (lines 61-71); `ValueError` becomes `Except.error`. -/
def normalize_team (team : String) : Except String String :=
  let t := upperStr (String.mk (pyStrip team.data))
  if TEAM_ABBREVIATIONS.contains t then Except.ok t
  else match LEGACY_TEAM_FIXES.find? (fun kv => kv.1 == t) with
  | some kv => Except.ok kv.2
  | none =>
    match TEAM_NAME_TO_ABBR.find? (fun kv => upperStr kv.1 == t) with
    | some kv => Except.ok kv.2
    | none => Except.error ("Unknown team: " ++ t)

/-- Boolean test that `pat` is a prefix of `s` (list of characters). -/
def isPre : List Char → List Char → Bool
  | [], _ => true
  | _ :: _, [] => false
  | a :: pr, b :: bs => a == b && isPre pr bs

/-- Python `str.replace(pat, "")`: remove all (left-to-right, non-overlapping)
occurrences of the non-empty pattern `pat`. -/
def replaceAll (pat : List Char) : List Char → List Char
  | [] => []
  | c :: rest =>
      if h : pat ≠ [] ∧ isPre pat (c :: rest) then
        replaceAll pat ((c :: rest).drop pat.length)
      else
        c :: replaceAll pat rest
termination_by s => s.length
decreasing_by
  · simp only [List.length_drop, List.length_cons]
    have : 0 < pat.length := List.length_pos.mpr h.1
    omega
  · simp

/-- The character class kept by `re.sub(r"[^a-z ]+", "", _)`. -/
def isAZspace (c : Char) : Bool := ('a' ≤ c && c ≤ 'z') || c == ' '

/-- Python `str.split()` (no argument): split on whitespace runs, dropping
empty tokens. -/
def tokens (s : List Char) : List (List Char) :=
  (s.splitOnP (fun c => c.isWhitespace)).filter (fun t => !t.isEmpty)

/-- The cleaned name of `create_player_key`: value of the `clean_name` variable
after line 85 of `constants.py` (lower-case, `sr`/`jr`/`.` occurrences removed,
non-letters removed, stripped). -/
def cleanName (name : String) : List Char :=
  let c1 := pyStrip (replaceAll ['.'] (replaceAll ['j', 'r'] (replaceAll ['s', 'r']
              (name.data.map Char.toLower))))
  pyStrip (c1.filter isAZspace)

/-- The last whitespace-delimited token of the cleaned name, or the cleaned name
itself when there is no token (`parts[-1] if parts else clean_name`). -/
def lastNameTok (name : String) : List Char :=
  match (tokens (cleanName name)).getLast? with
  | some t => t
  | none => cleanName name

/-- `create_player_key` from `constants.py` (lines 82-88). -/
def create_player_key (name pos team : String) : String :=
  String.mk (lastNameTok name) ++ "_" ++ lowerStr pos ++ "_" ++ lowerStr team

/-! ### scrapers/base.py, scrapers/fantasypros.py, processors dataclasses -/

/-- `PlayerProjection` dataclass from `scrapers/base.py`. -/
structure PlayerProjection where
  key : String
  name : String
  pos : String
  team : String
  pass_yds : ℚ := 0.0
  pass_tds : ℚ := 0.0
  pass_ints : ℚ := 0.0
  rush_yds : ℚ := 0.0
  rush_tds : ℚ := 0.0
  receptions : ℚ := 0.0
  rec_yds : ℚ := 0.0
  rec_tds : ℚ := 0.0
  fumbles : ℚ := 0.0
  two_pts : ℚ := 0.0
  kick_0_19 : ℚ := 0.0
  kick_20_29 : ℚ := 0.0
  kick_30_39 : ℚ := 0.0
  kick_40_49 : ℚ := 0.0
  kick_50 : ℚ := 0.0
  kick_xp : ℚ := 0.0
  dst_sacks : ℚ := 0.0
  dst_ints : ℚ := 0.0
  dst_fumbles : ℚ := 0.0
  dst_tds : ℚ := 0.0
  dst_safeties : ℚ := 0.0
  dst_pa_per_game : ℚ := 0.0
  target_share : Option ℚ := none
  snap_pct : Option ℚ := none
  red_zone_targets : Option ℚ := none
  red_zone_carries : Option ℚ := none
  air_yards : Option ℚ := none
  yards_after_contact : Option ℚ := none
deriving DecidableEq

/-- `ADPData` dataclass from `scrapers/fantasypros.py`. -/
structure ADPData where
  key : String
  name : String
  pos : String
  team : String
  bye : ℤ
  std : ℚ
  half_ppr : ℚ
  ppr : ℚ
deriving DecidableEq

/-- `RiskProfile` dataclass from `processors/risk_calculator.py`. -/
structure RiskProfile where
  injury_score : ℤ
  consistency_score : ℚ
  floor : ℚ
  ceiling : ℚ
  weekly_variance : ℚ
  games_played_history : ℤ × ℤ × ℤ
  current_status : String
  age : Option ℤ := none
deriving DecidableEq

/-- `ScheduleScore` dataclass from `processors/schedule_analyzer.py`. -/
structure ScheduleScore where
  team : String
  sos_overall : ℚ
  sos_playoffs : ℚ
  weekly_matchups : List ℤ
  bye_week : ℤ
  dome_games : ℤ
deriving DecidableEq

/-- `ScheduleScore.get_schedule_adjustment` (schedule_analyzer.py lines 17-27). -/
def ScheduleScore.get_schedule_adjustment (s : ScheduleScore) : ℚ :=
  let combined := s.sos_overall * 0.4 + s.sos_playoffs * 0.6
  let adjustment := -combined * 15
  pyRound 1 adjustment

/-! ### processors/aggregator.py -/

/-- `EnhancedPlayer` dataclass from `aggregator.py`, with its field defaults. -/
structure EnhancedPlayer where
  key : String
  name : String
  pos : String
  team : String
  bye : ℤ
  adp_std : ℚ
  adp_half_ppr : ℚ
  adp_ppr : ℚ
  pass_yds : ℚ := 0.0
  pass_tds : ℚ := 0.0
  pass_ints : ℚ := 0.0
  rush_yds : ℚ := 0.0
  rush_tds : ℚ := 0.0
  receptions : ℚ := 0.0
  rec_yds : ℚ := 0.0
  rec_tds : ℚ := 0.0
  fumbles : ℚ := 0.0
  two_pts : ℚ := 0.0
  kick_0_19 : ℚ := 0.0
  kick_20_29 : ℚ := 0.0
  kick_30_39 : ℚ := 0.0
  kick_40_49 : ℚ := 0.0
  kick_50 : ℚ := 0.0
  kick_xp : ℚ := 0.0
  dst_sacks : ℚ := 0.0
  dst_ints : ℚ := 0.0
  dst_fumbles : ℚ := 0.0
  dst_tds : ℚ := 0.0
  dst_safeties : ℚ := 0.0
  dst_pa_per_game : ℚ := 0.0
  target_share : Option ℚ := none
  snap_pct : Option ℚ := none
  red_zone_targets : Option ℚ := none
  red_zone_carries : Option ℚ := none
  air_yards : Option ℚ := none
  yards_after_contact : Option ℚ := none
  injury_score : ℤ := 30
  consistency_score : ℚ := 0.5
  floor : ℚ := 0.0
  ceiling : ℚ := 0.0
  weekly_variance : ℚ := 0.0
  sos_overall : ℚ := 0.0
  sos_playoffs : ℚ := 0.0
  schedule_adjustment : ℚ := 0.0
deriving DecidableEq

/-- Source reliability weights (`SOURCE_WEIGHTS`). -/
def SOURCE_WEIGHTS : List (String × ℚ) :=
  [("FantasyPros", 1.2), ("ESPN", 1.0), ("CBS", 0.9), ("NFL", 0.8)]

/-- `SOURCE_WEIGHTS.get(source, 1.0)` as used at aggregator.py line 171. -/
def sourceWeight (source : String) : ℚ := dictGet SOURCE_WEIGHTS source 1.0

/-- `weighted_average` from `aggregator.py` (lines 85-102). -/
def weighted_average (values : List (ℚ × ℚ)) : ℚ :=
  if values = [] then 0.0
  else
    let total_weight := ((values.filter (fun vw => decide (0 < vw.2))).map (fun vw => vw.2)).sum
    if total_weight = 0 then 0.0
    else
      let weighted_sum := ((values.filter (fun vw => decide (0 < vw.2))).map (fun vw => vw.1 * vw.2)).sum
      pyRound 2 (weighted_sum / total_weight)

/-- Python `{adp.key: adp for adp in adp_data}[key]` lookup (last entry wins,
as in a Python dict build). -/
def adpLookup (adp_data : List ADPData) (key : String) : Option ADPData :=
  adp_data.foldl (fun acc a => if a.key == key then some a else acc) none

/-- One step of the grouping loop of `aggregate_projections` (lines 127-131):
append `(source, proj)` to the dict entry for `proj.key`, inserting a new entry
at the end on first encounter (Python dicts preserve insertion order). -/
def addProj (m : List (String × List (String × PlayerProjection)))
    (source : String) (proj : PlayerProjection) :
    List (String × List (String × PlayerProjection)) :=
  if m.any (fun e => e.1 == proj.key) then
    m.map (fun e => if e.1 == proj.key then (e.1, e.2 ++ [(source, proj)]) else e)
  else
    m ++ [(proj.key, [(source, proj)])]

/-- The `player_projections` grouping dict of `aggregate_projections`. -/
def groupProjections (projections_by_source : List (String × List PlayerProjection)) :
    List (String × List (String × PlayerProjection)) :=
  projections_by_source.foldl
    (fun m sp => sp.2.foldl (fun m proj => addProj m sp.1 proj) m) []

/-- Per-stat-field aggregation (aggregator.py lines 167-175): the final value of
one numeric stat field, given the getter for that field. -/
def aggField (get : PlayerProjection → ℚ)
    (source_projs : List (String × PlayerProjection)) : ℚ :=
  let values := source_projs.filterMap
    (fun sp => if 0 < get sp.2 then some (get sp.2, sourceWeight sp.1) else none)
  if values = [] then 0.0 else weighted_average values

/-- First non-`None` advanced-stat value across sources (lines 182-187). -/
def firstAdv (get : PlayerProjection → Option ℚ)
    (source_projs : List (String × PlayerProjection)) : Option ℚ :=
  source_projs.findSome? (fun sp => get sp.2)

/-- Truthiness-respecting lookup for the optional `risk_profiles` /
`schedule_scores` dict parameters: Python `if d and key in d` is false for both
`None` and an empty dict. -/
def optDictFind {β : Type} (d : Option (List (String × β))) (key : String) : Option β :=
  match d with
  | none => none
  | some l =>
      if l.isEmpty then none
      else l.foldl (fun acc kv => if kv.1 == key then some kv.2 else acc) none

/-- Construction of one `EnhancedPlayer` from its projection group and ADP entry
(aggregator.py lines 142-203); `first_proj` is `source_projs[0]`. -/
def buildPlayer (key : String) (source_projs : List (String × PlayerProjection))
    (first_proj : PlayerProjection) (adp : ADPData)
    (risk_profiles : Option (List (String × RiskProfile)))
    (schedule_scores : Option (List (String × ScheduleScore))) : EnhancedPlayer :=
  let base : EnhancedPlayer :=
    { key := key
      name := first_proj.name
      pos := first_proj.pos
      team := first_proj.team
      bye := adp.bye
      adp_std := adp.std
      adp_half_ppr := adp.half_ppr
      adp_ppr := adp.ppr
      pass_yds := aggField (fun p => p.pass_yds) source_projs
      pass_tds := aggField (fun p => p.pass_tds) source_projs
      pass_ints := aggField (fun p => p.pass_ints) source_projs
      rush_yds := aggField (fun p => p.rush_yds) source_projs
      rush_tds := aggField (fun p => p.rush_tds) source_projs
      receptions := aggField (fun p => p.receptions) source_projs
      rec_yds := aggField (fun p => p.rec_yds) source_projs
      rec_tds := aggField (fun p => p.rec_tds) source_projs
      fumbles := aggField (fun p => p.fumbles) source_projs
      two_pts := aggField (fun p => p.two_pts) source_projs
      kick_0_19 := aggField (fun p => p.kick_0_19) source_projs
      kick_20_29 := aggField (fun p => p.kick_20_29) source_projs
      kick_30_39 := aggField (fun p => p.kick_30_39) source_projs
      kick_40_49 := aggField (fun p => p.kick_40_49) source_projs
      kick_50 := aggField (fun p => p.kick_50) source_projs
      kick_xp := aggField (fun p => p.kick_xp) source_projs
      dst_sacks := aggField (fun p => p.dst_sacks) source_projs
      dst_ints := aggField (fun p => p.dst_ints) source_projs
      dst_fumbles := aggField (fun p => p.dst_fumbles) source_projs
      dst_tds := aggField (fun p => p.dst_tds) source_projs
      dst_safeties := aggField (fun p => p.dst_safeties) source_projs
      dst_pa_per_game := aggField (fun p => p.dst_pa_per_game) source_projs
      target_share := firstAdv (fun p => p.target_share) source_projs
      snap_pct := firstAdv (fun p => p.snap_pct) source_projs
      red_zone_targets := firstAdv (fun p => p.red_zone_targets) source_projs
      red_zone_carries := firstAdv (fun p => p.red_zone_carries) source_projs
      air_yards := firstAdv (fun p => p.air_yards) source_projs
      yards_after_contact := firstAdv (fun p => p.yards_after_contact) source_projs }
  let withRisk :=
    match optDictFind risk_profiles key with
    | some risk =>
        { base with
          injury_score := risk.injury_score
          consistency_score := risk.consistency_score
          floor := risk.floor
          ceiling := risk.ceiling
          weekly_variance := risk.weekly_variance }
    | none => base
  match optDictFind schedule_scores first_proj.team with
  | some schedule =>
      { withRisk with
        sos_overall := schedule.sos_overall
        sos_playoffs := schedule.sos_playoffs
        schedule_adjustment := schedule.get_schedule_adjustment }
  | none => withRisk

/-- The `enhanced_players` accumulation loop (aggregator.py lines 136-205), in
group order, before the final sort.  The `source_projs[0]` subscript raises
`IndexError` on an empty group in Python; this is modelled as `Except.error`
(and proved unreachable for groups built by `groupProjections`). -/
def aggregateCore (groups : List (String × List (String × PlayerProjection)))
    (adp_data : List ADPData)
    (risk_profiles : Option (List (String × RiskProfile)))
    (schedule_scores : Option (List (String × ScheduleScore))) :
    Except String (List EnhancedPlayer) :=
  match groups with
  | [] => Except.ok []
  | (key, source_projs) :: rest =>
      match adpLookup adp_data key with
      | none => aggregateCore rest adp_data risk_profiles schedule_scores
      | some adp =>
          match source_projs with
          | [] => Except.error "IndexError: list index out of range"
          | fp :: _ =>
              match aggregateCore rest adp_data risk_profiles schedule_scores with
              | Except.error e => Except.error e
              | Except.ok tail =>
                  Except.ok (buildPlayer key source_projs fp.2 adp
                    risk_profiles schedule_scores :: tail)

/-- Comparison used by `enhanced_players.sort(key=lambda p: p.adp_std)`. -/
def adpLe (p q : EnhancedPlayer) : Bool := decide (p.adp_std ≤ q.adp_std)

/-- `aggregate_projections` from `aggregator.py` (lines 105-210): grouping,
ADP join, aggregation and the final stable sort by standard ADP. -/
def aggregate_projections (projections_by_source : List (String × List PlayerProjection))
    (adp_data : List ADPData)
    (risk_profiles : Option (List (String × RiskProfile)) := none)
    (schedule_scores : Option (List (String × ScheduleScore)) := none) :
    Except String (List EnhancedPlayer) :=
  match aggregateCore (groupProjections projections_by_source) adp_data
      risk_profiles schedule_scores with
  | Except.error e => Except.error e
  | Except.ok players => Except.ok (players.mergeSort adpLe)

/-! ### validators/data_quality.py -/

/-- The `stats` dict of a `ValidationResult` (the parts `validate_projections`
fills in: `total` and the per-position counts in encounter order). -/
structure ValidationStats where
  total : ℕ
  by_position : List (String × ℕ)
deriving DecidableEq

/-- `ValidationResult` dataclass from `data_quality.py`. -/
structure ValidationResult where
  is_valid : Bool
  errors : List String
  warnings : List String
  stats : ValidationStats
deriving DecidableEq

/-- Strict minimum player counts by position (`MIN_COUNTS_STRICT`), in source
order. -/
def MIN_COUNTS_STRICT : List (String × ℕ) :=
  [("QB", 32), ("RB", 64), ("WR", 64), ("TE", 28), ("K", 15), ("DST", 32)]

/-- Relaxed minimum counts: `{k: v // 3 for k, v in MIN_COUNTS_STRICT.items()}`. -/
def MIN_COUNTS_RELAXED : List (String × ℕ) :=
  MIN_COUNTS_STRICT.map (fun kv => (kv.1, kv.2 / 3))

/-- Valid NFL team codes of the validator (`VALID_TEAMS`; note it holds `WAS`,
not the normalizer's canonical `WSH`). -/
def VALID_TEAMS : List String :=
  ["ARI", "ATL", "BAL", "BUF", "CAR", "CHI", "CIN", "CLE",
   "DAL", "DEN", "DET", "GB", "HOU", "IND", "JAX", "KC",
   "LAC", "LAR", "LV", "MIA", "MIN", "NE", "NO", "NYG",
   "NYJ", "PHI", "PIT", "SEA", "SF", "TB", "TEN", "WAS"]

/-- `position_counts[pos] = position_counts.get(pos, 0) + 1` on an
insertion-ordered dict. -/
def bumpCount (m : List (String × ℕ)) (pos : String) : List (String × ℕ) :=
  if m.any (fun e => e.1 == pos) then
    m.map (fun e => if e.1 == pos then (e.1, e.2 + 1) else e)
  else
    m ++ [(pos, 1)]

/-- Python `set.add` modelled on an encounter-ordered duplicate-free list. -/
def setAdd (s : List String) (x : String) : List String :=
  if s.contains x then s else s ++ [x]

/-- State of the scanning loop of `validate_projections` (lines 68-78):
position counts, invalid team set, invalid position set. -/
def scanProj (acc : List (String × ℕ) × List String × List String)
    (proj : PlayerProjection) : List (String × ℕ) × List String × List String :=
  let counts := bumpCount acc.1 proj.pos
  let teams := if VALID_TEAMS.contains proj.team then acc.2.1 else setAdd acc.2.1 proj.team
  let positions := if (MIN_COUNTS_STRICT.find? (fun kv => kv.1 == proj.pos)).isSome
    then acc.2.2 else setAdd acc.2.2 proj.pos
  (counts, teams, positions)

/-- Comparison used to model Python `sorted` on strings. -/
def strLe (a b : String) : Bool := !(decide (b < a))

/-- `validate_projections` from `data_quality.py` (lines 42-101). -/
def validate_projections (projections : List PlayerProjection)
    (strict : Bool := true) : ValidationResult :=
  if projections = [] then
    { is_valid := false
      errors := ["No projections provided"]
      warnings := []
      stats := { total := 0, by_position := [] } }
  else
    let scanned := projections.foldl scanProj ([], [], [])
    let position_counts := scanned.1
    let invalid_teams := scanned.2.1
    let invalid_positions := scanned.2.2
    let min_counts := if strict then MIN_COUNTS_STRICT else MIN_COUNTS_RELAXED
    let countErrors := min_counts.filterMap (fun pm =>
      let actual := dictGet position_counts pm.1 0
      if actual < pm.2 then
        if strict then
          some ("Insufficient " ++ pm.1 ++ ": " ++ toString actual ++ " < " ++ toString pm.2)
        else none
      else none)
    let countWarnings := min_counts.filterMap (fun pm =>
      let actual := dictGet position_counts pm.1 0
      if actual < pm.2 then
        if strict then none
        else some ("Low " ++ pm.1 ++ " count: " ++ toString actual ++ " < " ++ toString pm.2)
      else none)
    let teamWarnings :=
      if invalid_teams = [] then []
      else ["Unknown teams: " ++ String.intercalate ", " (invalid_teams.mergeSort strLe)]
    let positionWarnings :=
      if invalid_positions = [] then []
      else ["Unknown positions: " ++ String.intercalate ", " (invalid_positions.mergeSort strLe)]
    let errors := countErrors
    let warnings := countWarnings ++ teamWarnings ++ positionWarnings
    { is_valid := errors.length = 0
      errors := errors
      warnings := warnings
      stats := { total := projections.length, by_position := position_counts } }

/-! ### Concrete instances used by claim C3 and by witnesses -/

/-- The 26 lowercase ASCII letters. -/
def lowercaseLetters : List Char := "abcdefghijklmnopqrstuvwxyz".data

/-- Two-source demo projection (ESPN, weight 1.0): 1000 rushing yards. -/
def demoESPN : PlayerProjection :=
  { key := "smith_rb_kc", name := "John Smith", pos := "RB", team := "KC", rush_yds := 1000 }

/-- Two-source demo projection (CBS, weight 0.9): 1100 rushing yards. -/
def demoCBS : PlayerProjection :=
  { key := "smith_rb_kc", name := "John Smith", pos := "RB", team := "KC", rush_yds := 1100 }

/-- ADP entry matching the demo projections. -/
def demoADP : ADPData :=
  { key := "smith_rb_kc", name := "John Smith", pos := "RB", team := "KC",
    bye := 7, std := 12.5, half_ppr := 11.0, ppr := 10.0 }

/-- A projection whose team is the normalizer's canonical Washington code. -/
def wshProj : PlayerProjection :=
  { key := "daniels_qb_wsh", name := "Jayden Daniels", pos := "QB", team := "WSH" }

/-! ### General-purpose lemmas about the numeric primitives -/

theorem rhe_ge_floor {α : Type} [LinearOrderedField α] [FloorRing α] (x : α) :
    ⌊x⌋ ≤ rhe x := by
  unfold rhe
  split_ifs <;> omega

theorem rhe_le_floor_add_one {α : Type} [LinearOrderedField α] [FloorRing α] (x : α) :
    rhe x ≤ ⌊x⌋ + 1 := by
  unfold rhe
  split_ifs <;> omega

theorem rhe_mono {α : Type} [LinearOrderedField α] [FloorRing α]
    {x y : α} (h : x ≤ y) : rhe x ≤ rhe y := by
  rcases lt_or_eq_of_le (Int.floor_le_floor h) with hf | hf
  · calc rhe x ≤ ⌊x⌋ + 1 := rhe_le_floor_add_one x
    _ ≤ ⌊y⌋ := by omega
    _ ≤ rhe y := rhe_ge_floor y
  · unfold rhe
    rw [hf]
    have hxy : x - ⌊y⌋ ≤ y - ⌊y⌋ := by
      have : (⌊x⌋ : α) = (⌊y⌋ : α) := by exact_mod_cast hf
      rw [← this]
      linarith
    split_ifs <;> first | omega | linarith

theorem pyRound_mono {α : Type} [LinearOrderedField α] [FloorRing α]
    {n : ℕ} {x y : α} (h : x ≤ y) : pyRound n x ≤ pyRound n y := by
  unfold pyRound
  have h10 : (0:α) < 10 ^ n := by positivity
  gcongr
  exact_mod_cast rhe_mono (by nlinarith)

theorem rhe_eval_lt {α : Type} [LinearOrderedField α] [FloorRing α]
    {q : α} {z : ℤ} (h1 : (z:α) ≤ q) (h2 : q - z < 1/2) :
    rhe q = z := by
  have hf : ⌊q⌋ = z := Int.floor_eq_iff.mpr ⟨h1, by linarith⟩
  unfold rhe
  rw [hf]
  rw [if_pos h2]

theorem rhe_eval_gt {α : Type} [LinearOrderedField α] [FloorRing α]
    {q : α} {z : ℤ} (h1 : (z:α) ≤ q) (h2 : (1:α)/2 < q - z)
    (h3 : q < z + 1) : rhe q = z + 1 := by
  have hf : ⌊q⌋ = z := Int.floor_eq_iff.mpr ⟨h1, by linarith⟩
  unfold rhe
  rw [hf]
  rw [if_neg (by linarith), if_pos h2]

theorem rhe_intCast {α : Type} [LinearOrderedField α] [FloorRing α] (z : ℤ) :
    rhe ((z:α)) = z :=
  rhe_eval_lt le_rfl (by norm_num)

/-- Evaluation of `pyRound` when the value is exactly representable with `n`
decimal digits. -/
theorem pyRound_of_int {α : Type} [LinearOrderedField α] [FloorRing α]
    {n : ℕ} {q : α} {z : ℤ} (h : q * 10 ^ n = (z:α)) :
    pyRound n q = q := by
  unfold pyRound
  rw [h, rhe_intCast, ← h]
  field_simp

/-- Evaluation of `pyRound` when the scaled value rounds down. -/
theorem pyRound_eval_lt {n : ℕ} {q : ℚ} {z : ℤ} (h1 : (z:ℚ) ≤ q * 10 ^ n)
    (h2 : q * 10 ^ n - z < 1/2) : pyRound n q = (z:ℚ) / 10 ^ n := by
  unfold pyRound
  rw [rhe_eval_lt h1 h2]

/-- Evaluation of `pyRound` when the scaled value rounds up. -/
theorem pyRound_eval_gt {n : ℕ} {q : ℚ} {z : ℤ} (h1 : (z:ℚ) ≤ q * 10 ^ n)
    (h2 : (1:ℚ)/2 < q * 10 ^ n - z) (h3 : q * 10 ^ n < z + 1) :
    pyRound n q = ((z + 1 : ℤ):ℚ) / 10 ^ n := by
  unfold pyRound
  rw [rhe_eval_gt h1 h2 h3]

theorem pyTrunc_mono {x y : ℚ} (h : x ≤ y) : pyTrunc x ≤ pyTrunc y := by
  unfold pyTrunc
  split_ifs with hx hy hy
  · exact Int.floor_le_floor h
  · linarith
  · calc ⌈x⌉ ≤ 0 := Int.ceil_le.mpr (by norm_num; linarith)
    _ ≤ ⌊y⌋ := Int.le_floor.mpr (by exact_mod_cast hy)
  · exact Int.ceil_le_ceil h

/-! ### Claim C1: floor/ceiling -/

/-- C1 counterexample: at projectedPoints = 100 (> 0), consistency_score = 1.0
(in [0,1]) and injury_score = 100 (in [0,100]), `calculate_floor_ceiling`
returns (floor, ceiling) = (90.0, 88.0), so the claimed `floor < ceiling` is
false. -/
theorem C1_floor_ceiling_counterexample :
    calculate_floor_ceiling 100 1.0 100 = (90.0, 88.0) ∧
    ¬ ((calculate_floor_ceiling 100 1.0 100).1 <
        (calculate_floor_ceiling 100 1.0 100).2) := by
  have hfloor : pyRound 1 (floorRaw 100 1.0) = 90 := by
    rw [pyRound_of_int (z := 900) (by norm_num [floorRaw, variance_factor])]
    norm_num [floorRaw, variance_factor]
  have hceil : pyRound 1 (ceilingRaw 100 1.0 100) = 88 := by
    rw [pyRound_of_int (z := 880)
      (by norm_num [ceilingRaw, variance_factor, injury_factor])]
    norm_num [ceilingRaw, variance_factor, injury_factor]
  have heq : calculate_floor_ceiling 100 1.0 100 = (90.0, 88.0) := by
    unfold calculate_floor_ceiling
    rw [if_neg (by norm_num), hfloor, hceil]
    norm_num
  refine ⟨heq, ?_⟩
  rw [heq]
  norm_num

/-- C1 (amended): for projectedPoints ≤ 0 the result is exactly (0.0, 0.0);
for projectedPoints > 0, consistency_score in [0,1] and injury_score in [0,90]
the pre-rounding floor is strictly below the pre-rounding ceiling, and the
returned (1-decimal rounded) pair satisfies floor ≤ ceiling.  (For injury
scores above 90 with high consistency the ordering can flip, see the
counterexample.) -/
theorem C1_floor_ceiling_amended :
    ∀ (projectedPoints consistency : ℚ) (injury : ℤ),
      (projectedPoints ≤ 0 →
        calculate_floor_ceiling projectedPoints consistency injury = (0.0, 0.0)) ∧
      (0 < projectedPoints → 0 ≤ consistency → consistency ≤ 1 →
       0 ≤ injury → injury ≤ 90 →
        floorRaw projectedPoints consistency <
          ceilingRaw projectedPoints consistency injury ∧
        (calculate_floor_ceiling projectedPoints consistency injury).1 ≤
          (calculate_floor_ceiling projectedPoints consistency injury).2) := by
  intro p c i
  constructor
  · intro hp
    unfold calculate_floor_ceiling
    rw [if_pos hp]
    norm_num
  · intro hp hc0 hc1 hi0 hi90
    have hq0 : (0:ℚ) ≤ (i:ℚ) := by exact_mod_cast hi0
    have hq90 : (i:ℚ) ≤ 90 := by exact_mod_cast hi90
    have hraw : floorRaw p c < ceilingRaw p c i := by
      unfold floorRaw ceilingRaw variance_factor injury_factor
      have hbr : (1 - (0.1 + (1 - c) * 0.25)) <
          (1 + (0.1 + (1 - c) * 0.25)) * (1 - (i:ℚ)/100 * 0.2) := by
        nlinarith [sq_nonneg (1 - c), sq_nonneg ((i:ℚ)/100)]
      calc p * (1 - (0.1 + (1 - c) * 0.25))
          < p * ((1 + (0.1 + (1 - c) * 0.25)) * (1 - (i:ℚ)/100 * 0.2)) := by
            exact (mul_lt_mul_left hp).mpr hbr
        _ = p * (1 + (0.1 + (1 - c) * 0.25)) * (1 - (i:ℚ)/100 * 0.2) := by ring
    refine ⟨hraw, ?_⟩
    unfold calculate_floor_ceiling
    rw [if_neg (not_le.mpr hp)]
    exact pyRound_mono (le_of_lt hraw)

/-- C1 witness: the amended theorem applied at (-1, 0.5, 10) and (200, 0.8, 10). -/
theorem C1_floor_ceiling_witness :
    calculate_floor_ceiling (-1) 0.5 10 = (0.0, 0.0) ∧
    (floorRaw 200 0.8 < ceilingRaw 200 0.8 10 ∧
     (calculate_floor_ceiling 200 0.8 10).1 ≤ (calculate_floor_ceiling 200 0.8 10).2) :=
  ⟨(C1_floor_ceiling_amended (-1) 0.5 10).1 (by norm_num),
   (C1_floor_ceiling_amended 200 0.8 10).2 (by norm_num) (by norm_num)
     (by norm_num) (by norm_num) (by norm_num)⟩

/-! ### Claim C7: weighted_average -/

/-- C7 counterexample: the weight 1.0 is positive, yet
`weighted_average [(0.001, 1.0)]` is 0.0, not 0.001 — the 2-decimal rounding
of the source breaks the claimed identity `weighted_average [(x, w)] = x`. -/
theorem C7_weighted_average_counterexample :
    (0:ℚ) < 1.0 ∧
    weighted_average [(0.001, 1.0)] = 0.0 ∧
    (0.001 : ℚ) ≠ 0.0 := by
  refine ⟨by norm_num, ?_, by norm_num⟩
  unfold weighted_average
  rw [if_neg (by simp)]
  have hfil : ([((0.001 : ℚ), (1.0 : ℚ))].filter (fun vw => decide (0 < vw.2))) =
      [((0.001 : ℚ), (1.0 : ℚ))] := by
    simp [List.filter_cons]
    norm_num
  rw [hfil]
  simp only [List.map_cons, List.map_nil, List.sum_cons, List.sum_nil, add_zero]
  rw [if_neg (by norm_num)]
  rw [pyRound_eval_lt (z := 0) (by norm_num) (by norm_num)]
  norm_num

/-- C7 (amended): `weighted_average [] = 0.0`; for w > 0,
`weighted_average [(x, w)]` equals x rounded to 2 decimals (hence x itself
exactly when x carries at most 2 decimals); and inserting or removing an entry
of non-positive weight anywhere never changes the result. -/
theorem C7_weighted_average_amended :
    weighted_average [] = 0.0 ∧
    (∀ x w : ℚ, 0 < w → weighted_average [(x, w)] = pyRound 2 x) ∧
    (∀ (l₁ l₂ : List (ℚ × ℚ)) (x w : ℚ), w ≤ 0 →
      weighted_average (l₁ ++ (x, w) :: l₂) = weighted_average (l₁ ++ l₂)) := by
  refine ⟨rfl, ?_, ?_⟩
  · intro x w hw
    have hwne : w ≠ 0 := ne_of_gt hw
    unfold weighted_average
    rw [if_neg (by simp)]
    simp only [List.filter_cons, decide_eq_true_eq, hw, if_pos, List.filter_nil,
      List.map_cons, List.map_nil, List.sum_cons, List.sum_nil, add_zero]
    rw [if_neg hwne]
    rw [mul_div_assoc, div_self hwne, mul_one]
  · intro l₁ l₂ x w hw
    have hcond : (decide (0 < w)) = false := decide_eq_false_iff_not.mpr (not_lt.mpr hw)
    have hfil : (l₁ ++ (x, w) :: l₂).filter (fun vw => decide (0 < vw.2)) =
        (l₁ ++ l₂).filter (fun vw => decide (0 < vw.2)) := by
      simp [List.filter_append, List.filter_cons, hcond]
    by_cases hnil : l₁ ++ l₂ = []
    · obtain ⟨h1, h2⟩ := List.append_eq_nil.mp hnil
      subst h1; subst h2
      unfold weighted_average
      simp [List.filter_cons, hcond]
    · unfold weighted_average
      rw [if_neg (show ¬ (l₁ ++ (x, w) :: l₂ = []) by simp), if_neg hnil, hfil]

/-- C7 witness: the amended theorem applied at concrete inputs. -/
theorem C7_weighted_average_witness :
    weighted_average [(3, 2)] = pyRound 2 3 ∧
    weighted_average ([(1, 1)] ++ (5, 0) :: []) = weighted_average ([(1, 1)] ++ []) :=
  ⟨C7_weighted_average_amended.2.1 3 2 (by norm_num),
   C7_weighted_average_amended.2.2 [(1, 1)] [] 5 0 (by norm_num)⟩

/-! ### Claim C4: injury score monotonicity and bounds -/

theorem injury_clamp_mono {S T : ℚ} (h : S ≤ T) :
    min (max (pyTrunc S) 0) 100 ≤ min (max (pyTrunc T) 0) 100 := by
  have := pyTrunc_mono h
  omega

/-- C4: `calculate_injury_score` is monotonically non-decreasing in games
missed (fewer total games played over the 3 seasons never lowers the score),
in age (holding position fixed), and in status severity under
healthy ≤ questionable ≤ out = injured ≤ ir; and it always lies in [0, 100]. -/
theorem C4_injury_score_monotone_bounded :
    (∀ (g g' : ℤ × ℤ × ℤ) (age : Option ℤ) (pos status : String),
      g.1 + g.2.1 + g.2.2 ≤ g'.1 + g'.2.1 + g'.2.2 →
      calculate_injury_score g' age pos status ≤ calculate_injury_score g age pos status) ∧
    (∀ (g : ℤ × ℤ × ℤ) (a a' : ℤ) (pos status : String), a ≤ a' →
      calculate_injury_score g (some a) pos status ≤
        calculate_injury_score g (some a') pos status) ∧
    (∀ (g : ℤ × ℤ × ℤ) (age : Option ℤ) (pos : String),
      calculate_injury_score g age pos "healthy" ≤
        calculate_injury_score g age pos "questionable" ∧
      calculate_injury_score g age pos "questionable" ≤
        calculate_injury_score g age pos "out" ∧
      calculate_injury_score g age pos "out" =
        calculate_injury_score g age pos "injured" ∧
      calculate_injury_score g age pos "injured" ≤
        calculate_injury_score g age pos "ir") ∧
    (∀ (g : ℤ × ℤ × ℤ) (age : Option ℤ) (pos status : String),
      0 ≤ calculate_injury_score g age pos status ∧
        calculate_injury_score g age pos status ≤ 100) := by
  refine ⟨?_, ?_, ?_, ?_⟩
  · intro g g' age pos status hg
    simp only [calculate_injury_score]
    apply injury_clamp_mono
    have hc : ((g.1 + g.2.1 + g.2.2 : ℤ) : ℚ) ≤ ((g'.1 + g'.2.1 + g'.2.2 : ℤ) : ℚ) := by
      exact_mod_cast hg
    push_cast at hc ⊢
    rw [if_pos (by norm_num), if_pos (by norm_num)]
    have : (1 - (g'.1 + g'.2.1 + g'.2.2 : ℚ) / (17 * 3)) * 50 ≤
        (1 - (g.1 + g.2.1 + g.2.2 : ℚ) / (17 * 3)) * 50 := by linarith
    linarith
  · intro g a a' pos status ha
    simp only [calculate_injury_score]
    apply injury_clamp_mono
    have hage : (if dictGet AGE_THRESHOLDS pos 30 < a
          then min ((a - dictGet AGE_THRESHOLDS pos 30) * 3) 15 else 0 : ℤ) ≤
        (if dictGet AGE_THRESHOLDS pos 30 < a'
          then min ((a' - dictGet AGE_THRESHOLDS pos 30) * 3) 15 else 0) := by
      split_ifs <;> omega
    have hq : ((if dictGet AGE_THRESHOLDS pos 30 < a
          then min ((a - dictGet AGE_THRESHOLDS pos 30) * 3) 15 else 0 : ℤ) : ℚ) ≤
        ((if dictGet AGE_THRESHOLDS pos 30 < a'
          then min ((a' - dictGet AGE_THRESHOLDS pos 30) * 3) 15 else 0 : ℤ) : ℚ) := by
      exact_mod_cast hage
    linarith
  · intro g age pos
    have h1 : dictGet STATUS_RISK (lowerStr "healthy") 0.0 = 0.0 := rfl
    have h2 : dictGet STATUS_RISK (lowerStr "questionable") 0.0 = 0.3 := rfl
    have h3 : dictGet STATUS_RISK (lowerStr "out") 0.0 = 0.5 := rfl
    have h4 : dictGet STATUS_RISK (lowerStr "injured") 0.0 = 0.5 := rfl
    have h5 : dictGet STATUS_RISK (lowerStr "ir") 0.0 = 0.8 := rfl
    refine ⟨?_, ?_, ?_, ?_⟩
    · simp only [calculate_injury_score, h1, h2]
      exact injury_clamp_mono (by norm_num)
    · simp only [calculate_injury_score, h2, h3]
      exact injury_clamp_mono (by norm_num)
    · simp only [calculate_injury_score, h3, h4]
    · simp only [calculate_injury_score, h4, h5]
      exact injury_clamp_mono (by norm_num)
  · intro g age pos status
    simp only [calculate_injury_score]
    omega

/-- C4 witness: the monotonicity parts applied at concrete inputs. -/
theorem C4_injury_score_witness :
    calculate_injury_score (17, 17, 17) (some 25) "WR" "healthy" ≤
      calculate_injury_score (8, 10, 12) (some 25) "WR" "healthy" ∧
    calculate_injury_score (17, 17, 17) (some 26) "RB" "healthy" ≤
      calculate_injury_score (17, 17, 17) (some 30) "RB" "healthy" :=
  ⟨C4_injury_score_monotone_bounded.1 (8, 10, 12) (17, 17, 17) (some 25) "WR"
      "healthy" (by norm_num),
   C4_injury_score_monotone_bounded.2.1 (17, 17, 17) 26 30 "RB" "healthy"
      (by norm_num)⟩

/-! ### Claim C6: consistency score -/

/-- C6 counterexample: `[5.0]` has all entries equal, yet
`calculate_consistency_score([5.0], 1)` is 0.5, not the claimed 1.0 (a single
positive week falls into the fewer-than-2-active-weeks branch, which the same
claim requires to return 0.5). -/
theorem C6_consistency_counterexample :
    calculate_consistency_score [5] 1 = 0.5 ∧ (0.5 : ℝ) ≠ 1.0 := by
  constructor
  · unfold calculate_consistency_score
    rw [if_neg (by norm_num)]
    have hfil : ([(5:ℝ)].filter (fun p => decide (0 < p))) = [5] := by
      norm_num [List.filter_cons]
    rw [if_pos (by rw [hfil]; norm_num)]
  · norm_num

/-- C6 (amended): for a weekly_points list with at least two entries, all equal
to the same strictly positive value, and nonzero games_played, the score is
exactly 1.0; and any input with fewer than 2 strictly positive weeks yields
exactly 0.5. -/
theorem C6_consistency_amended :
    (∀ (wp : List ℝ) (gp : ℤ) (c : ℝ),
      gp ≠ 0 → 2 ≤ wp.length → 0 < c → (∀ x ∈ wp, x = c) →
      calculate_consistency_score wp gp = 1.0) ∧
    (∀ (wp : List ℝ) (gp : ℤ),
      (wp.filter (fun p => decide (0 < p))).length < 2 →
      calculate_consistency_score wp gp = 0.5) := by
  constructor
  · intro wp gp c hgp hlen hc hall
    have hfil : wp.filter (fun p => decide (0 < p)) = wp :=
      List.filter_eq_self.mpr (fun x hx => by rw [hall x hx]; exact decide_eq_true hc)
    have hn : (wp.length : ℝ) ≠ 0 := by
      have : wp.length ≠ 0 := by omega
      exact_mod_cast this
    have hsum : wp.sum = wp.length • c := List.sum_eq_card_nsmul wp c hall
    have hmean : wp.sum / (wp.length : ℝ) = c := by
      rw [hsum, nsmul_eq_mul, mul_comm, mul_div_assoc, div_self hn, mul_one]
    have hvar : (wp.map (fun x => (x - c) ^ 2)).sum = 0 := by
      apply List.sum_eq_zero
      intro y hy
      rcases List.mem_map.mp hy with ⟨x, hx, rfl⟩
      rw [hall x hx]
      ring
    unfold calculate_consistency_score
    rw [if_neg (by push_neg; exact ⟨hgp, by omega⟩)]
    simp only [hfil]
    rw [if_neg (not_lt.mpr hlen)]
    simp only [hmean]
    rw [if_neg (ne_of_gt hc)]
    rw [hvar]
    rw [zero_div, Real.sqrt_zero, zero_div, sub_zero]
    have hmm : max (0.0:ℝ) (min 1.0 1.0) = 1.0 := by norm_num
    rw [hmm]
    exact pyRound_of_int (z := 1000) (by norm_num)
  · intro wp gp hfew
    unfold calculate_consistency_score
    by_cases h0 : gp = 0 ∨ wp.length = 0
    · rw [if_pos h0]
    · rw [if_neg h0, if_pos hfew]

/-- C6 witness: the amended theorem applied at concrete inputs. -/
theorem C6_consistency_witness :
    calculate_consistency_score [5, 5] 1 = 1.0 ∧
    calculate_consistency_score [] 3 = 0.5 :=
  ⟨C6_consistency_amended.1 [5, 5] 1 5 (by norm_num) (by norm_num) (by norm_num)
      (by intro x hx
          rcases List.mem_cons.mp hx with h | h
          · exact h
          · simpa using h),
   C6_consistency_amended.2 [] 3 (by simp)⟩

/-! ### Claim C3: per-field weighted aggregation -/

theorem sourceWeight_pos (s : String) : 0 < sourceWeight s := by
  unfold sourceWeight dictGet
  rcases hfind : SOURCE_WEIGHTS.find? (fun kv => kv.1 == s) with _ | kv
  · rw [hfind]
    norm_num
  · rw [hfind]
    have hmem := List.mem_of_find?_eq_some hfind
    simp only [SOURCE_WEIGHTS, List.mem_cons, List.not_mem_nil, or_false] at hmem
    rcases hmem with h | h | h | h <;> rw [h] <;> norm_num

theorem weighted_average_of_pos (values : List (ℚ × ℚ)) (hne : values ≠ [])
    (hpos : ∀ vw ∈ values, 0 < vw.2) :
    weighted_average values =
      pyRound 2 (((values.map (fun vw => vw.1 * vw.2)).sum) /
        ((values.map (fun vw => vw.2)).sum)) := by
  unfold weighted_average
  rw [if_neg hne]
  have hfil : values.filter (fun vw => decide (0 < vw.2)) = values :=
    List.filter_eq_self.mpr (fun vw h => decide_eq_true (hpos vw h))
  rw [hfil]
  have htw : 0 < (values.map (fun vw => vw.2)).sum := by
    apply List.sum_pos
    · intro x hx
      rcases List.mem_map.mp hx with ⟨vw, hvw, rfl⟩
      exact hpos vw hvw
    · simp [hne]
  rw [if_neg (ne_of_gt htw)]

/-- C3: every numeric stat field is aggregated by collecting (value, weight)
pairs from sources whose value is strictly positive (weights from the fixed
source table, 1.0 for unknown sources) and taking the weighted average rounded
to 2 decimals, staying 0.0 when no source qualifies; and the two-source demo
(1000 at weight 1.0, 1100 at weight 0.9) yields a rush_yds value within 1.0
of 1047.4. -/
theorem C3_weighted_stat_aggregation :
    (∀ (get : PlayerProjection → ℚ) (source_projs : List (String × PlayerProjection)),
      aggField get source_projs =
        (let pairs := source_projs.filterMap
          (fun sp => if 0 < get sp.2 then some (get sp.2, sourceWeight sp.1) else none)
         if pairs = [] then 0.0
         else pyRound 2 (((pairs.map (fun vw => vw.1 * vw.2)).sum) /
            ((pairs.map (fun vw => vw.2)).sum)))) ∧
    (∃ r : ℚ,
      Except.map (fun l => l.map (fun p => p.rush_yds))
          (aggregate_projections [("ESPN", [demoESPN]), ("CBS", [demoCBS])]
            [demoADP] none none) = Except.ok [r] ∧
      |r - 1047.4| ≤ 1) := by
  constructor
  · intro get source_projs
    simp only [aggField]
    by_cases hnil : source_projs.filterMap
        (fun sp => if 0 < get sp.2 then some (get sp.2, sourceWeight sp.1) else none) = []
    · rw [if_pos hnil, if_pos hnil]
    · rw [if_neg hnil, if_neg hnil]
      apply weighted_average_of_pos _ hnil
      intro vw hvw
      rcases List.mem_filterMap.mp hvw with ⟨sp, _, hsp⟩
      by_cases hpos : 0 < get sp.2
      · rw [if_pos hpos] at hsp
        cases hsp
        exact sourceWeight_pos sp.1
      · rw [if_neg hpos] at hsp
        cases hsp
  · refine ⟨1047.37, ?_, by rw [abs_le]; constructor <;> norm_num⟩
    have hcore : aggregateCore
        (groupProjections [("ESPN", [demoESPN]), ("CBS", [demoCBS])]) [demoADP]
          none none =
        Except.ok [buildPlayer "smith_rb_kc" [("ESPN", demoESPN), ("CBS", demoCBS)]
          demoESPN demoADP none none] := rfl
    have hsort : aggregate_projections [("ESPN", [demoESPN]), ("CBS", [demoCBS])]
        [demoADP] none none =
        Except.ok [buildPlayer "smith_rb_kc" [("ESPN", demoESPN), ("CBS", demoCBS)]
          demoESPN demoADP none none] := by
      unfold aggregate_projections
      rw [hcore]
      exact congrArg Except.ok (List.mergeSort_singleton _)
    rw [hsort]
    have hry : (buildPlayer "smith_rb_kc" [("ESPN", demoESPN), ("CBS", demoCBS)]
        demoESPN demoADP none none).rush_yds =
        aggField (fun p => p.rush_yds) [("ESPN", demoESPN), ("CBS", demoCBS)] := rfl
    have hv : ([("ESPN", demoESPN), ("CBS", demoCBS)]).filterMap
        (fun sp => if 0 < sp.2.rush_yds
          then some (sp.2.rush_yds, sourceWeight sp.1) else none) =
        [(1000, 1.0), (1100, 0.9)] := by
      simp only [List.filterMap_cons, List.filterMap_nil]
      rw [show demoESPN.rush_yds = 1000 from rfl, show demoCBS.rush_yds = 1100 from rfl,
        show sourceWeight "ESPN" = 1.0 from rfl, show sourceWeight "CBS" = 0.9 from rfl]
      rw [if_pos (by norm_num), if_pos (by norm_num)]
    have h2 : aggField (fun p => p.rush_yds) [("ESPN", demoESPN), ("CBS", demoCBS)] =
        weighted_average [(1000, 1.0), (1100, 0.9)] := by
      simp only [aggField]
      rw [hv]
      rw [if_neg (by simp)]
    have h3 : weighted_average [(1000, 1.0), (1100, 0.9)] = 1047.37 := by
      rw [weighted_average_of_pos _ (by simp) (by intro vw h; fin_cases h <;> norm_num)]
      have hq : ((([((1000:ℚ), (1.0:ℚ)), (1100, 0.9)].map (fun vw => vw.1 * vw.2)).sum) /
          (([((1000:ℚ), (1.0:ℚ)), (1100, 0.9)].map (fun vw => vw.2)).sum)) = 1990 / 1.9 := by
        norm_num
      rw [hq, pyRound_eval_gt (z := 104736) (by norm_num) (by norm_num) (by norm_num)]
      norm_num
    simp only [Except.map, List.map_cons, List.map_nil, hry, h2, h3]

/-! ### Claims C2 and C8: aggregation join, totality, ordering -/

theorem addProj_nonempty {m : List (String × List (String × PlayerProjection))}
    (hm : ∀ e ∈ m, e.2 ≠ []) (s : String) (p : PlayerProjection) :
    ∀ e ∈ addProj m s p, e.2 ≠ [] := by
  intro e he
  unfold addProj at he
  split at he
  · rcases List.mem_map.mp he with ⟨e', he', rfl⟩
    split
    · simp
    · exact hm e' he'
  · rcases List.mem_append.mp he with h | h
    · exact hm e h
    · simp only [List.mem_singleton] at h
      subst h
      simp

theorem foldl_addProj_nonempty (projs : List PlayerProjection) (s : String) :
    ∀ m, (∀ e ∈ m, e.2 ≠ []) →
      ∀ e ∈ projs.foldl (fun m proj => addProj m s proj) m, e.2 ≠ [] := by
  induction projs with
  | nil => intro m hm; simpa using hm
  | cons p ps ih =>
      intro m hm
      exact ih _ (addProj_nonempty hm s p)

theorem groupProjections_nonempty (pbs : List (String × List PlayerProjection)) :
    ∀ e ∈ groupProjections pbs, e.2 ≠ [] := by
  suffices h : ∀ (l : List (String × List PlayerProjection)) m,
      (∀ e ∈ m, e.2 ≠ []) →
      ∀ e ∈ l.foldl (fun m sp => sp.2.foldl (fun m proj => addProj m sp.1 proj) m) m,
        e.2 ≠ [] by
    intro e he
    exact h pbs [] (by simp) e he
  intro l
  induction l with
  | nil => intro m hm; simpa using hm
  | cons sp rest ih =>
      intro m hm
      exact ih _ (foldl_addProj_nonempty sp.2 sp.1 m hm)

theorem aggregateCore_total (groups : List (String × List (String × PlayerProjection)))
    (adp_data : List ADPData) (rp : Option (List (String × RiskProfile)))
    (ss : Option (List (String × ScheduleScore)))
    (hne : ∀ e ∈ groups, e.2 ≠ []) :
    ∃ out, aggregateCore groups adp_data rp ss = Except.ok out := by
  induction groups with
  | nil => exact ⟨[], rfl⟩
  | cons g rest ih =>
      obtain ⟨k, sps⟩ := g
      obtain ⟨tail, htail⟩ := ih (fun e he => hne e (List.mem_cons_of_mem _ he))
      unfold aggregateCore
      rcases hadp : adpLookup adp_data k with _ | adp
      · exact ⟨tail, htail⟩
      · rcases sps with _ | ⟨fp, rest'⟩
        · exact absurd rfl (hne (k, []) (List.mem_cons_self _ _))
        · rw [htail]
          exact ⟨_, rfl⟩

theorem buildPlayer_key (k : String) (sps : List (String × PlayerProjection))
    (fp : PlayerProjection) (adp : ADPData)
    (rp : Option (List (String × RiskProfile)))
    (ss : Option (List (String × ScheduleScore))) :
    (buildPlayer k sps fp adp rp ss).key = k := by
  unfold buildPlayer
  rcases optDictFind rp k with _ | risk <;>
    rcases optDictFind ss fp.team with _ | schedule <;> rfl

theorem aggregateCore_key_has_adp
    (groups : List (String × List (String × PlayerProjection)))
    (adp_data : List ADPData) (rp : Option (List (String × RiskProfile)))
    (ss : Option (List (String × ScheduleScore)))
    {out : List EnhancedPlayer}
    (hout : aggregateCore groups adp_data rp ss = Except.ok out) :
    ∀ p ∈ out, (adpLookup adp_data p.key).isSome := by
  induction groups generalizing out with
  | nil =>
      intro p hp
      unfold aggregateCore at hout
      cases hout
      simp at hp
  | cons g rest ih =>
      obtain ⟨k, sps⟩ := g
      intro p hp
      unfold aggregateCore at hout
      rcases hadp : adpLookup adp_data k with _ | adp
      · rw [hadp] at hout
        exact ih hout p hp
      · rw [hadp] at hout
        rcases sps with _ | ⟨fp, rest'⟩
        · cases hout
        · rcases htail : aggregateCore rest adp_data rp ss with e | tail
          · rw [htail] at hout
            cases hout
          · rw [htail] at hout
            cases hout
            rcases List.mem_cons.mp hp with h | h
            · subst h
              rw [buildPlayer_key]
              rw [hadp]
              rfl
            · exact ih htail p h

theorem adpLookup_eq_none {adp_data : List ADPData} {k : String}
    (h : ∀ a ∈ adp_data, a.key ≠ k) : adpLookup adp_data k = none := by
  unfold adpLookup
  suffices hgen : ∀ (l : List ADPData) (acc : Option ADPData),
      (∀ a ∈ l, a.key ≠ k) →
      l.foldl (fun acc a => if a.key == k then some a else acc) acc = acc by
    exact hgen adp_data none h
  intro l
  induction l with
  | nil => intro acc _; rfl
  | cons a rest ih =>
      intro acc hl
      simp only [List.foldl_cons]
      rw [if_neg (by simpa using hl a (List.mem_cons_self _ _))]
      exact ih acc (fun a' ha' => hl a' (List.mem_cons_of_mem _ ha'))

/-- C2: a canonical key that appears in some source's projection list but has
no ADP entry yields no `EnhancedPlayer` in the output, and the exclusion is
silent: `aggregate_projections` returns `Except.ok` (it raises no exception),
also when the optional risk/schedule maps are absent (`none`). -/
theorem C2_missing_adp_excluded :
    ∀ (pbs : List (String × List PlayerProjection)) (adp_data : List ADPData)
      (rp : Option (List (String × RiskProfile)))
      (ss : Option (List (String × ScheduleScore))) (k : String),
      (∃ sp ∈ pbs, ∃ p ∈ sp.2, p.key = k) →
      (∀ a ∈ adp_data, a.key ≠ k) →
      ∃ out, aggregate_projections pbs adp_data rp ss = Except.ok out ∧
        ∀ p ∈ out, p.key ≠ k := by
  intro pbs adp_data rp ss k _ hnoadp
  obtain ⟨core, hcore⟩ := aggregateCore_total (groupProjections pbs) adp_data rp ss
    (groupProjections_nonempty pbs)
  refine ⟨core.mergeSort adpLe, ?_, ?_⟩
  · unfold aggregate_projections
    rw [hcore]
  · intro p hp hkey
    have hmem : p ∈ core := List.mem_mergeSort.mp hp
    have hsome := aggregateCore_key_has_adp _ _ _ _ hcore p hmem
    rw [hkey, adpLookup_eq_none hnoadp] at hsome
    simp at hsome

/-- C2 witness: a projection with no ADP entry is silently excluded. -/
theorem C2_missing_adp_witness :
    ∃ out, aggregate_projections [("ESPN", [demoESPN])] [] none none = Except.ok out ∧
      ∀ p ∈ out, p.key ≠ "smith_rb_kc" :=
  C2_missing_adp_excluded [("ESPN", [demoESPN])] [] none none "smith_rb_kc"
    ⟨("ESPN", [demoESPN]), by simp, demoESPN, by simp, rfl⟩
    (by intro a ha; simp at ha)

theorem adpLe_trans : ∀ (a b c : EnhancedPlayer), adpLe a b → adpLe b c → adpLe a c := by
  intro a b c hab hbc
  simp only [adpLe, decide_eq_true_eq] at hab hbc ⊢
  exact le_trans hab hbc

theorem adpLe_total : ∀ (a b : EnhancedPlayer), adpLe a b || adpLe b a := by
  intro a b
  simp only [adpLe]
  rcases le_total a.adp_std b.adp_std with h | h <;> simp [h]

/-- Stability of `mergeSort` in filter form: the sublist of elements tied at a
given sort key is exactly the corresponding sublist of the input. -/
theorem mergeSort_filter_tied {α : Type} {le : α → α → Bool} (p : α → Bool)
    (htrans : ∀ a b c, le a b → le b c → le a c)
    (htotal : ∀ a b, le a b || le b a)
    (tied : ∀ a b, p a → p b → le a b)
    (l : List α) : (l.mergeSort le).filter p = l.filter p := by
  have hall : ∀ x ∈ l.filter p, p x := fun x hx => List.of_mem_filter hx
  have key : ∀ (m : List α), (∀ x ∈ m, p x) → m.Pairwise (fun a b => le a b = true) := by
    intro m
    induction m with
    | nil => intro _; exact List.Pairwise.nil
    | cons a t ih =>
        intro hm
        refine List.Pairwise.cons ?_ (ih fun x hx => hm x (List.mem_cons_of_mem _ hx))
        intro b hb
        exact tied a b (hm a (List.mem_cons_self _ _)) (hm b (List.mem_cons_of_mem _ hb))
  have hsub : List.Sublist (l.filter p) (l.mergeSort le) :=
    List.sublist_mergeSort htrans htotal (key _ hall) (List.filter_sublist l)
  have hsub2 : List.Sublist (l.filter p) ((l.mergeSort le).filter p) := by
    have h := hsub.filter p
    rwa [List.filter_eq_self.mpr hall] at h
  have hperm : List.Perm ((l.mergeSort le).filter p) (l.filter p) :=
    (List.mergeSort_perm l le).filter p
  exact (hsub2.eq_of_length hperm.length_eq.symm).symm

theorem aggregateCore_keys
    (groups : List (String × List (String × PlayerProjection)))
    (adp_data : List ADPData) (rp : Option (List (String × RiskProfile)))
    (ss : Option (List (String × ScheduleScore)))
    {out : List EnhancedPlayer}
    (hout : aggregateCore groups adp_data rp ss = Except.ok out) :
    out.map (fun p => p.key) =
      groups.filterMap
        (fun g => if (adpLookup adp_data g.1).isSome then some g.1 else none) := by
  induction groups generalizing out with
  | nil =>
      unfold aggregateCore at hout
      cases hout
      rfl
  | cons g rest ih =>
      obtain ⟨k, sps⟩ := g
      unfold aggregateCore at hout
      rcases hadp : adpLookup adp_data k with _ | adp
      · rw [hadp] at hout
        simp only [List.filterMap_cons, hadp, Option.isSome_none, Bool.false_eq_true,
          if_false]
        exact ih hout
      · rw [hadp] at hout
        rcases sps with _ | ⟨fp, rest'⟩
        · cases hout
        · rcases htail : aggregateCore rest adp_data rp ss with e | tail
          · rw [htail] at hout
            cases hout
          · rw [htail] at hout
            cases hout
            simp only [List.filterMap_cons, hadp, Option.isSome_some, if_true,
              List.map_cons, buildPlayer_key, ih htail]

/-- C8: the aggregator's output is `aggregateCore`'s group-ordered list sorted
stably ascending by `adp_std`: the output is pairwise non-decreasing in
`adp_std`, players tied at any ADP value keep their `aggregateCore` order, and
`aggregateCore` lists keys in grouping order (first-encounter order of keys,
restricted to the keys that have an ADP match). -/
theorem C8_output_sorted_stable :
    ∀ (pbs : List (String × List PlayerProjection)) (adp_data : List ADPData)
      (rp : Option (List (String × RiskProfile)))
      (ss : Option (List (String × ScheduleScore))),
      ∃ core out,
        aggregateCore (groupProjections pbs) adp_data rp ss = Except.ok core ∧
        aggregate_projections pbs adp_data rp ss = Except.ok out ∧
        out = core.mergeSort adpLe ∧
        out.Pairwise (fun p q => p.adp_std ≤ q.adp_std) ∧
        (∀ v : ℚ, out.filter (fun p => p.adp_std == v) =
          core.filter (fun p => p.adp_std == v)) ∧
        core.map (fun p => p.key) =
          (groupProjections pbs).filterMap
            (fun g => if (adpLookup adp_data g.1).isSome then some g.1 else none) := by
  intro pbs adp_data rp ss
  obtain ⟨core, hcore⟩ := aggregateCore_total (groupProjections pbs) adp_data rp ss
    (groupProjections_nonempty pbs)
  refine ⟨core, core.mergeSort adpLe, hcore, ?_, rfl, ?_, ?_, ?_⟩
  · unfold aggregate_projections
    rw [hcore]
  · exact (List.sorted_mergeSort adpLe_trans adpLe_total core).imp
      (fun h => of_decide_eq_true h)
  · intro v
    apply mergeSort_filter_tied _ adpLe_trans adpLe_total
    intro a b ha hb
    have ha' : a.adp_std = v := by simpa using ha
    have hb' : b.adp_std = v := by simpa using hb
    simp [adpLe, ha', hb']
  · exact aggregateCore_keys _ _ _ _ hcore

/-! ### Claims C5 and C9: validator -/

theorem dictGet_mapinc (m : List (String × ℕ)) (q pos : String) :
    dictGet (m.map (fun e => if e.1 == q then (e.1, e.2 + 1) else e)) pos 0 =
      dictGet m pos 0 +
        (if pos = q ∧ (m.find? (fun kv => kv.1 == pos)).isSome then 1 else 0) := by
  induction m with
  | nil => simp [dictGet]
  | cons kv rest ih =>
      by_cases hkp : kv.1 = pos
      · subst hkp
        by_cases hkq : kv.1 = q
        · unfold dictGet
          rw [List.map_cons, if_pos (by simpa using hkq)]
          rw [List.find?_cons_of_pos _ (by simp), List.find?_cons_of_pos _ (by simp)]
          simp [hkq]
        · unfold dictGet
          rw [List.map_cons, if_neg (by simpa using hkq)]
          rw [List.find?_cons_of_pos _ (by simp), List.find?_cons_of_pos _ (by simp)]
          have : ¬ (kv.1 = q) := hkq
          simp [this]
      · have hhead : ((if kv.1 == q then (kv.1, kv.2 + 1) else kv).1 == pos) = false := by
          split <;> simpa using hkp
        have hkpf : (kv.1 == pos) = false := by simpa using hkp
        unfold dictGet
        rw [List.map_cons, List.find?_cons, List.find?_cons, hhead, hkpf]
        exact ih

theorem dictGet_bumpCount (m : List (String × ℕ)) (q pos : String) :
    dictGet (bumpCount m q) pos 0 = dictGet m pos 0 + (if pos = q then 1 else 0) := by
  unfold bumpCount
  by_cases hq : m.any (fun e => e.1 == q)
  · rw [if_pos hq]
    rw [dictGet_mapinc]
    by_cases hpq : pos = q
    · subst hpq
      have hsome : (m.find? (fun kv => kv.1 == pos)).isSome := by
        rcases List.any_eq_true.mp hq with ⟨e, he, hpe⟩
        exact List.find?_isSome.mpr ⟨e, he, hpe⟩
      simp [hsome]
    · simp [hpq]
  · rw [if_neg hq]
    unfold dictGet
    rw [List.find?_append]
    rcases hfind : m.find? (fun kv => kv.1 == pos) with _ | kv
    · by_cases hpq : pos = q
      · subst hpq
        simp [hfind, Option.or]
      · simp only [hfind, Option.or]
        rw [List.find?_cons_of_neg _ (by simpa using fun h : q = pos => hpq h.symm)]
        simp [hpq]
    · have hne : pos ≠ q := by
        intro h
        subst h
        have hpkv := List.find?_some hfind
        have hmem := List.mem_of_find?_eq_some hfind
        rw [Bool.not_eq_true] at hq
        exact absurd hpkv ((List.any_eq_false.mp hq) kv hmem)
      simp [hfind, Option.or, hne]

theorem scan_count (pos : String) :
    ∀ (ps : List PlayerProjection) (acc : List (String × ℕ) × List String × List String),
      dictGet (ps.foldl scanProj acc).1 pos 0 =
        dictGet acc.1 pos 0 + (ps.filter (fun p => p.pos == pos)).length := by
  intro ps
  induction ps with
  | nil => intro acc; simp
  | cons p rest ih =>
      intro acc
      rw [List.foldl_cons, ih]
      have hstep : dictGet (scanProj acc p).1 pos 0 =
          dictGet acc.1 pos 0 + (if pos = p.pos then 1 else 0) := by
        unfold scanProj
        exact dictGet_bumpCount acc.1 p.pos pos
      rw [hstep, List.filter_cons]
      by_cases hp : p.pos = pos
      · simp [hp]
        omega
      · simp [hp, Ne.symm hp]

theorem scan_teams_mono (x : String) :
    ∀ (ps : List PlayerProjection) (acc : List (String × ℕ) × List String × List String),
      x ∈ acc.2.1 → x ∈ (ps.foldl scanProj acc).2.1 := by
  intro ps
  induction ps with
  | nil => intro acc h; simpa using h
  | cons p rest ih =>
      intro acc h
      rw [List.foldl_cons]
      apply ih
      unfold scanProj
      dsimp only
      split
      · exact h
      · unfold setAdd
        split
        · exact h
        · exact List.mem_append_left _ h

theorem scan_teams_add :
    ∀ (ps : List PlayerProjection) (acc : List (String × ℕ) × List String × List String)
      (p : PlayerProjection), p ∈ ps → VALID_TEAMS.contains p.team = false →
      p.team ∈ (ps.foldl scanProj acc).2.1 := by
  intro ps
  induction ps with
  | nil => intro acc p h; simp at h
  | cons q rest ih =>
      intro acc p hp hteam
      rw [List.foldl_cons]
      rcases List.mem_cons.mp hp with h | h
      · subst h
        apply scan_teams_mono
        unfold scanProj
        dsimp only
        rw [if_neg (by rw [hteam]; simp)]
        unfold setAdd
        split
        · exact List.mem_of_elem_eq_true (by assumption)
        · exact List.mem_append_right _ (List.mem_singleton_self _)
      · exact ih _ p h hteam

/-- C5: the normalizer maps Washington/Commanders/WAS to the canonical code
WSH, but the validator's VALID_TEAMS set holds WAS and not WSH; consequently
any projection list containing a record with team "WSH" draws an
"Unknown teams" warning that names WSH. -/
theorem C5_wsh_normalizer_validator_mismatch :
    normalize_team "Washington" = Except.ok "WSH" ∧
    normalize_team "Commanders" = Except.ok "WSH" ∧
    normalize_team "WAS" = Except.ok "WSH" ∧
    VALID_TEAMS.contains "WAS" = true ∧
    VALID_TEAMS.contains "WSH" = false ∧
    (∀ (ps : List PlayerProjection) (strict : Bool),
      (∃ p ∈ ps, p.team = "WSH") →
      ∃ l, "WSH" ∈ l ∧
        ("Unknown teams: " ++ String.intercalate ", " l) ∈
          (validate_projections ps strict).warnings) := by
  refine ⟨rfl, rfl, rfl, rfl, rfl, ?_⟩
  intro ps strict ⟨p, hp, hteam⟩
  have hne : ps ≠ [] := by
    intro h
    rw [h] at hp
    simp at hp
  have hmem : "WSH" ∈ (ps.foldl scanProj ([], [], [])).2.1 := by
    have := scan_teams_add ps ([], [], []) p hp (by rw [hteam]; rfl)
    rwa [hteam] at this
  have hinv_ne : (ps.foldl scanProj ([], [], [])).2.1 ≠ [] := by
    intro h
    rw [h] at hmem
    simp at hmem
  refine ⟨(ps.foldl scanProj ([], [], [])).2.1.mergeSort strLe,
    List.mem_mergeSort.mpr hmem, ?_⟩
  unfold validate_projections
  rw [if_neg hne]
  dsimp only
  rw [if_neg hinv_ne]
  apply List.mem_append_left
  apply List.mem_append_right
  exact List.mem_singleton_self _

/-- C5 witness: a single projection with team "WSH" under strict validation. -/
theorem C5_wsh_witness :
    ∃ l, "WSH" ∈ l ∧
      ("Unknown teams: " ++ String.intercalate ", " l) ∈
        (validate_projections [wshProj] true).warnings :=
  C5_wsh_normalizer_validator_mismatch.2.2.2.2.2 [wshProj] true
    ⟨wshProj, List.mem_singleton_self _, rfl⟩

/-- C9: empty input is invalid with the "No projections provided" error; in
strict mode a position count below its strict minimum produces an
"Insufficient" error naming the position and makes the result invalid; in
relaxed mode, the same shortfall with the count at or above one-third of the
strict minimum leaves the result valid with an empty error list (anything
reported for the position can only be a warning, never an error). -/
theorem C9_validate_projections_thresholds :
    ((validate_projections [] true).is_valid = false ∧
      "No projections provided" ∈ (validate_projections [] true).errors) ∧
    (∀ (ps : List PlayerProjection) (pos : String) (mc : ℕ),
      ps ≠ [] → (pos, mc) ∈ MIN_COUNTS_STRICT →
      ∀ n, n = (ps.filter (fun p => p.pos == pos)).length → n < mc →
        (validate_projections ps true).is_valid = false ∧
        ("Insufficient " ++ pos ++ ": " ++ toString n ++ " < " ++ toString mc) ∈
          (validate_projections ps true).errors) ∧
    (∀ (ps : List PlayerProjection) (pos : String) (mc : ℕ),
      ps ≠ [] → (pos, mc) ∈ MIN_COUNTS_STRICT →
      ∀ n, n = (ps.filter (fun p => p.pos == pos)).length → n < mc → mc ≤ 3 * n →
        (validate_projections ps false).is_valid = true ∧
        (validate_projections ps false).errors = []) := by
  refine ⟨⟨rfl, by simp [validate_projections]⟩, ?_, ?_⟩
  · intro ps pos mc hne hmem n hn hlt
    have hcount : dictGet (ps.foldl scanProj ([], [], [])).1 pos 0 = n := by
      rw [scan_count pos ps ([], [], [])]
      simpa [dictGet] using hn.symm
    have herr : ("Insufficient " ++ pos ++ ": " ++ toString n ++ " < " ++ toString mc) ∈
        (validate_projections ps true).errors := by
      unfold validate_projections
      rw [if_neg hne]
      dsimp only
      apply List.mem_filterMap.mpr
      refine ⟨(pos, mc), by simpa using hmem, ?_⟩
      dsimp only
      rw [hcount, if_pos hlt, if_pos rfl]
    refine ⟨?_, herr⟩
    have hlen : (validate_projections ps true).errors ≠ [] := by
      intro h
      rw [h] at herr
      simp at herr
    unfold validate_projections at herr hlen ⊢
    rw [if_neg hne] at herr hlen ⊢
    dsimp only at herr hlen ⊢
    simp only [decide_eq_false_iff_not]
    intro hcontra
    exact hlen (List.eq_nil_of_length_eq_zero hcontra)
  · intro ps pos mc hne _ n _ _ _
    have herrs : (validate_projections ps false).errors = [] := by
      unfold validate_projections
      rw [if_neg hne]
      dsimp only
      apply List.filterMap_eq_nil_iff.mpr
      intro pm _
      dsimp only
      split
      · rfl
      · rfl
    refine ⟨?_, herrs⟩
    unfold validate_projections at herrs ⊢
    rw [if_neg hne] at herrs ⊢
    dsimp only at herrs ⊢
    simp [herrs]

/-- C9 witness: the three parts at concrete inputs (one QB in strict mode;
eleven QBs in relaxed mode, 11 being at least a third of 32). -/
theorem C9_validate_witness :
    ((validate_projections [] true).is_valid = false ∧
      "No projections provided" ∈ (validate_projections [] true).errors) ∧
    ((validate_projections [wshProj] true).is_valid = false ∧
      ("Insufficient " ++ "QB" ++ ": " ++ toString 1 ++ " < " ++ toString 32) ∈
        (validate_projections [wshProj] true).errors) ∧
    ((validate_projections (List.replicate 11 wshProj) false).is_valid = true ∧
      (validate_projections (List.replicate 11 wshProj) false).errors = []) := by
  refine ⟨C9_validate_projections_thresholds.1, ?_, ?_⟩
  · exact C9_validate_projections_thresholds.2.1 [wshProj] "QB" 32 (by simp)
      (by simp [MIN_COUNTS_STRICT]) 1 rfl (by norm_num)
  · exact C9_validate_projections_thresholds.2.2 (List.replicate 11 wshProj) "QB" 32
      (by simp) (by simp [MIN_COUNTS_STRICT]) 11 rfl (by norm_num) (by norm_num)

/-! ### Claim C10: player key derivation -/

theorem lower_char_facts {c : Char} (h : c ∈ lowercaseLetters) :
    Char.toLower c = c ∧ isAZspace c = true ∧ c.isWhitespace = false := by
  fin_cases h <;> exact ⟨by decide, by decide, by decide⟩

theorem isPre_iff (pat : List Char) : ∀ (s : List Char),
    isPre pat s = true ↔ List.IsPrefix pat s := by
  induction pat with
  | nil =>
      intro s
      simp [isPre, List.nil_prefix]
  | cons a pr ih =>
      intro s
      cases s with
      | nil =>
          simp [isPre]
      | cons b bs =>
          simp [isPre, ih, List.cons_prefix_cons, Bool.and_eq_true, beq_iff_eq]

theorem replaceAll_of_not_infix (pat : List Char) : ∀ (s : List Char),
    ¬ List.IsInfix pat s → replaceAll pat s = s := by
  intro s
  induction s with
  | nil => intro _; rw [replaceAll]
  | cons c rest ih =>
      intro h
      rw [replaceAll]
      rw [dif_neg]
      · exact congrArg (c :: ·) (ih (fun hi => h (List.infix_cons hi)))
      · rintro ⟨hne, hpre⟩
        exact h (List.IsPrefix.isInfix ((isPre_iff pat _).mp hpre))

theorem replaceAll_nil (pat : List Char) : replaceAll pat [] = [] := by
  rw [replaceAll]

theorem isPre_sep_false (pat : List Char) (hne : pat ≠ []) (hsp : ' ' ∉ pat)
    (y : List Char) : isPre pat (' ' :: y) = false := by
  cases pat with
  | nil => exact absurd rfl hne
  | cons p0 pr =>
      have hp0 : ¬ (p0 = ' ') := fun h => hsp (h ▸ List.mem_cons_self _ _)
      simp [isPre, hp0]

theorem replaceAll_sep_head (pat : List Char) (hne : pat ≠ []) (hsp : ' ' ∉ pat)
    (y : List Char) : replaceAll pat (' ' :: y) = ' ' :: replaceAll pat y := by
  rw [replaceAll, dif_neg]
  rintro ⟨_, hpre⟩
  rw [isPre_sep_false pat hne hsp y] at hpre
  exact Bool.false_ne_true hpre

/-- A `str.replace` pattern that contains no space cannot match across the last
space of the string, so removal distributes over it. -/
theorem replaceAll_append_sep (pat : List Char) (hne : pat ≠ []) (hsp : ' ' ∉ pat) :
    ∀ (x y : List Char), replaceAll pat (x ++ ' ' :: y) =
      replaceAll pat x ++ ' ' :: replaceAll pat y := by
  suffices main : ∀ (n : ℕ) (x y : List Char), x.length ≤ n →
      replaceAll pat (x ++ ' ' :: y) = replaceAll pat x ++ ' ' :: replaceAll pat y by
    intro x y
    exact main x.length x y le_rfl
  intro n
  induction n with
  | zero =>
      intro x y hx
      have hxnil : x = [] := List.length_eq_zero.mp (Nat.le_zero.mp hx)
      subst hxnil
      rw [List.nil_append, replaceAll_nil, List.nil_append]
      exact replaceAll_sep_head pat hne hsp y
  | succ n ihn =>
      intro x y hx
      cases x with
      | nil =>
          rw [List.nil_append, replaceAll_nil, List.nil_append]
          exact replaceAll_sep_head pat hne hsp y
      | cons c x' =>
          by_cases hm : isPre pat ((c :: x') ++ ' ' :: y) = true
          · have hpre : List.IsPrefix pat ((c :: x') ++ ' ' :: y) := (isPre_iff pat _).mp hm
            have hp2 : List.IsPrefix pat (c :: x') := by
              rcases List.prefix_or_prefix_of_prefix hpre
                  (List.prefix_append (c :: x') (' ' :: y)) with h1 | h1
              · exact h1
              · obtain ⟨z, hz⟩ := h1
                cases z with
                | nil => rw [← hz, List.append_nil]
                | cons z0 z' =>
                    obtain ⟨u, hu⟩ := hpre
                    rw [← hz, List.append_assoc] at hu
                    have hzu := List.append_cancel_left hu
                    have hz0 : z0 = ' ' := by
                      have := congrArg (fun l => l.head?) hzu
                      simpa using this
                    exfalso
                    apply hsp
                    rw [← hz]
                    subst hz0
                    exact List.mem_append_right _ (List.mem_cons_self _ _)
            obtain ⟨w, hw⟩ := hp2
            have hwlen : w.length ≤ n := by
              have hlen := congrArg List.length hw
              rw [List.length_append] at hlen
              have hpat1 : 1 ≤ pat.length := List.length_pos.mpr hne
              simp only [List.length_cons] at hlen hx
              omega
            rw [List.cons_append, replaceAll, dif_pos ⟨hne, hm⟩]
            rw [show (c :: (x' ++ ' ' :: y)) = pat ++ (w ++ ' ' :: y) by
              rw [← List.cons_append, ← hw, List.append_assoc]]
            rw [List.drop_left, ihn w y hwlen]
            rw [replaceAll, dif_pos ⟨hne, (isPre_iff pat _).mpr ⟨w, hw⟩⟩]
            rw [show (c :: x').drop pat.length = w by rw [← hw, List.drop_left]]
          · rw [List.cons_append, replaceAll, dif_neg (fun hq => hm hq.2)]
            have hx' : x'.length ≤ n := by
              simp only [List.length_cons] at hx
              omega
            rw [ihn x' y hx']
            rw [replaceAll, dif_neg]
            · rfl
            · rintro ⟨_, hp⟩
              apply hm
              apply (isPre_iff pat _).mpr
              exact ((isPre_iff pat _).mp hp).trans (List.prefix_append (c :: x') (' ' :: y))

theorem splitOnP_append_sep {p : Char → Bool} {a : Char} (ha : p a = true) :
    ∀ (x y : List Char), (x ++ a :: y).splitOnP p = x.splitOnP p ++ y.splitOnP p := by
  intro x y
  induction x with
  | nil =>
      rw [List.nil_append, List.splitOnP_cons, if_pos ha, List.splitOnP_nil,
        List.cons_append, List.nil_append]
  | cons c x' ih =>
      rw [List.cons_append, List.splitOnP_cons, List.splitOnP_cons]
      by_cases hc : p c = true
      · rw [if_pos hc, if_pos hc, ih, List.cons_append]
      · rw [if_neg hc, if_neg hc, ih]
        obtain ⟨h, t, hht⟩ := List.exists_cons_of_ne_nil (List.splitOnP_ne_nil p x')
        rw [hht, List.cons_append, List.modifyHead_cons, List.modifyHead_cons,
          List.cons_append]

theorem tokens_nil : tokens [] = [] := by
  simp [tokens, List.splitOnP_nil]

theorem tokens_append_sep {a : Char} (ha : a.isWhitespace = true) (x y : List Char) :
    tokens (x ++ a :: y) = tokens x ++ tokens y := by
  unfold tokens
  rw [splitOnP_append_sep ha, List.filter_append]

theorem tokens_no_ws {t : List Char} (hnw : ∀ c ∈ t, c.isWhitespace = false)
    (hne : t ≠ []) : tokens t = [t] := by
  unfold tokens
  have hsingle : List.splitOnP (fun c => c.isWhitespace) t = [t] :=
    List.splitOnP_eq_single _ t (fun x hx => by simp [hnw x hx])
  rw [hsingle]
  simp [hne]

theorem tokens_all_ws : ∀ {v : List Char}, (∀ c ∈ v, c.isWhitespace = true) →
    tokens v = [] := by
  intro v
  induction v with
  | nil => intro _; exact tokens_nil
  | cons c v' ih =>
      intro hv
      have := tokens_append_sep (hv c (List.mem_cons_self _ _)) [] v'
      rw [List.nil_append] at this
      rw [this, tokens_nil, List.nil_append]
      exact ih (fun d hd => hv d (List.mem_cons_of_mem _ hd))

theorem tokens_append_ws_right {v : List Char} (hv : ∀ c ∈ v, c.isWhitespace = true)
    (x : List Char) : tokens (x ++ v) = tokens x := by
  cases v with
  | nil => rw [List.append_nil]
  | cons a v' =>
      rw [tokens_append_sep (hv a (List.mem_cons_self _ _)) x v']
      rw [tokens_all_ws (fun d hd => hv d (List.mem_cons_of_mem _ hd)), List.append_nil]

theorem tokens_append_ws_left {v : List Char} (hv : ∀ c ∈ v, c.isWhitespace = true)
    (x : List Char) : tokens (v ++ x) = tokens x := by
  cases v with
  | nil => rw [List.nil_append]
  | cons a v' =>
      have := tokens_append_sep (hv a (List.mem_cons_self _ _)) [] (v' ++ x)
      rw [List.nil_append] at this
      rw [List.cons_append, this, tokens_nil, List.nil_append]
      exact tokens_append_ws_left (fun d hd => hv d (List.mem_cons_of_mem _ hd)) x

theorem exists_strip_decomp (s : List Char) :
    ∃ v w, s = v ++ pyStrip s ++ w ∧ (∀ c ∈ v, c.isWhitespace = true) ∧
      (∀ c ∈ w, c.isWhitespace = true) := by
  refine ⟨s.takeWhile Char.isWhitespace,
    ((s.dropWhile Char.isWhitespace).reverse.takeWhile Char.isWhitespace).reverse,
    ?_, ?_, ?_⟩
  · unfold pyStrip
    conv_lhs => rw [← List.takeWhile_append_dropWhile (p := Char.isWhitespace) (l := s)]
    rw [List.append_assoc]
    congr 1
    conv_lhs => rw [← List.reverse_reverse (s.dropWhile Char.isWhitespace)]
    conv_lhs =>
      rw [← List.takeWhile_append_dropWhile (p := Char.isWhitespace)
        (l := (s.dropWhile Char.isWhitespace).reverse)]
    rw [List.reverse_append]
  · intro c hc
    exact List.mem_takeWhile_imp hc
  · intro c hc
    rw [List.mem_reverse] at hc
    exact List.mem_takeWhile_imp hc

theorem tokens_pyStrip (s : List Char) : tokens (pyStrip s) = tokens s := by
  obtain ⟨v, w, hs, hv, hw⟩ := exists_strip_decomp s
  conv_rhs => rw [hs]
  rw [List.append_assoc, tokens_append_ws_left hv, tokens_append_ws_right hw]

theorem tokens_filter_pyStrip (u : List Char) :
    tokens ((pyStrip u).filter isAZspace) = tokens (u.filter isAZspace) := by
  obtain ⟨v, w, hu, hv, hw⟩ := exists_strip_decomp u
  conv_rhs => rw [hu]
  rw [List.filter_append, List.filter_append, List.append_assoc]
  rw [tokens_append_ws_left (fun c hc => hv c (List.mem_of_mem_filter hc))]
  rw [tokens_append_ws_right (fun c hc => hw c (List.mem_of_mem_filter hc))]

theorem tokens_cleanName_sep (a t : List Char) (hne : t ≠ [])
    (hlc : ∀ c ∈ t, c ∈ lowercaseLetters)
    (hsr : ¬ List.IsInfix ['s', 'r'] t) (hjr : ¬ List.IsInfix ['j', 'r'] t) :
    ∃ X, tokens (cleanName (String.mk (a ++ ' ' :: t))) = X ++ [t] := by
  have hfacts := fun c hc => lower_char_facts (hlc c hc)
  have hmap : t.map Char.toLower = t := by
    have h := List.map_congr_left (fun c hc => (hfacts c hc).1)
    rw [h]
    simp
  have hnws : ∀ c ∈ t, c.isWhitespace = false := fun c hc => (hfacts c hc).2.2
  have hdot : replaceAll ['.'] t = t :=
    replaceAll_of_not_infix _ _ (fun hi =>
      absurd (hlc '.' (hi.sublist.subset (List.mem_singleton_self _))) (by decide))
  have hsr' : replaceAll ['s', 'r'] t = t := replaceAll_of_not_infix _ _ hsr
  have hjr' : replaceAll ['j', 'r'] t = t := replaceAll_of_not_infix _ _ hjr
  have hfilt : t.filter isAZspace = t :=
    List.filter_eq_self.mpr (fun c hc => (hfacts c hc).2.1)
  refine ⟨tokens ((replaceAll ['.'] (replaceAll ['j', 'r'] (replaceAll ['s', 'r']
    (a.map Char.toLower)))).filter isAZspace), ?_⟩
  unfold cleanName
  rw [show (String.mk (a ++ ' ' :: t)).data = a ++ ' ' :: t from rfl]
  rw [List.map_append, List.map_cons, show Char.toLower ' ' = ' ' from rfl, hmap]
  rw [replaceAll_append_sep ['s', 'r'] (by simp) (by decide) (a.map Char.toLower) t,
    hsr']
  rw [replaceAll_append_sep ['j', 'r'] (by simp) (by decide) _ t, hjr']
  rw [replaceAll_append_sep ['.'] (by simp) (by decide) _ t, hdot]
  rw [tokens_pyStrip, tokens_filter_pyStrip]
  rw [List.filter_append, List.filter_cons]
  rw [show (isAZspace ' ') = true from rfl, if_pos rfl, hfilt]
  rw [tokens_append_sep (show (' ').isWhitespace = true from rfl)]
  rw [tokens_no_ws hnws hne]

theorem lastNameTok_sep (a t : List Char) (hne : t ≠ [])
    (hlc : ∀ c ∈ t, c ∈ lowercaseLetters)
    (hsr : ¬ List.IsInfix ['s', 'r'] t) (hjr : ¬ List.IsInfix ['j', 'r'] t) :
    lastNameTok (String.mk (a ++ ' ' :: t)) = t := by
  obtain ⟨X, hX⟩ := tokens_cleanName_sep a t hne hlc hsr hjr
  unfold lastNameTok
  rw [hX, List.getLast?_concat]

theorem lastNameTok_nospace (t : List Char) (hne : t ≠ [])
    (hlc : ∀ c ∈ t, c ∈ lowercaseLetters)
    (hsr : ¬ List.IsInfix ['s', 'r'] t) (hjr : ¬ List.IsInfix ['j', 'r'] t) :
    lastNameTok (String.mk t) = t := by
  have hfacts := fun c hc => lower_char_facts (hlc c hc)
  have hmap : t.map Char.toLower = t := by
    have h := List.map_congr_left (fun c hc => (hfacts c hc).1)
    rw [h]
    simp
  have hnws : ∀ c ∈ t, c.isWhitespace = false := fun c hc => (hfacts c hc).2.2
  have hdot : replaceAll ['.'] t = t :=
    replaceAll_of_not_infix _ _ (fun hi =>
      absurd (hlc '.' (hi.sublist.subset (List.mem_singleton_self _))) (by decide))
  have hsr' : replaceAll ['s', 'r'] t = t := replaceAll_of_not_infix _ _ hsr
  have hjr' : replaceAll ['j', 'r'] t = t := replaceAll_of_not_infix _ _ hjr
  have hfilt : t.filter isAZspace = t :=
    List.filter_eq_self.mpr (fun c hc => (hfacts c hc).2.1)
  have htoks : tokens (cleanName (String.mk t)) = [t] := by
    unfold cleanName
    rw [show (String.mk t).data = t from rfl]
    rw [hmap, hsr', hjr', hdot]
    rw [tokens_pyStrip, tokens_filter_pyStrip, hfilt]
    exact tokens_no_ws hnws hne
  unfold lastNameTok
  rw [htoks]
  rfl

/-- C10: `create_player_key` returns the last whitespace token of the cleaned
(suffix-stripped, non-letter-stripped, lower-cased) name joined with the
lower-cased position and team; in particular for a name whose last token is a
nonempty all-lowercase-letter word free of the stripped `sr`/`jr` patterns
(i.e. unaffected by the cleaning), the key is exactly lastToken_pos_team, with
or without a preceding name part. -/
theorem C10_create_player_key :
    (∀ (name pos team : String),
      create_player_key name pos team =
        String.mk (lastNameTok name) ++ "_" ++ lowerStr pos ++ "_" ++ lowerStr team) ∧
    (∀ (a t : List Char) (pos team : String),
      t ≠ [] → (∀ c ∈ t, c ∈ lowercaseLetters) →
      ¬ List.IsInfix ['s', 'r'] t → ¬ List.IsInfix ['j', 'r'] t →
      create_player_key (String.mk (a ++ ' ' :: t)) pos team =
        String.mk t ++ "_" ++ lowerStr pos ++ "_" ++ lowerStr team ∧
      create_player_key (String.mk t) pos team =
        String.mk t ++ "_" ++ lowerStr pos ++ "_" ++ lowerStr team) := by
  refine ⟨fun name pos team => rfl, ?_⟩
  intro a t pos team hne hlc hsr hjr
  constructor
  · unfold create_player_key
    rw [lastNameTok_sep a t hne hlc hsr hjr]
  · unfold create_player_key
    rw [lastNameTok_nospace t hne hlc hsr hjr]

/-- C10 witness: the suffix-free name "patrick mahomes" with position QB and
team KC yields the key "mahomes_qb_kc" by the theorem, in both the
two-token and single-token shapes. -/
theorem C10_player_key_witness :
    create_player_key (String.mk ("patrick".data ++ ' ' :: "mahomes".data)) "QB" "KC" =
      String.mk ("mahomes".data) ++ "_" ++ lowerStr "QB" ++ "_" ++ lowerStr "KC" ∧
    create_player_key (String.mk ("mahomes".data)) "QB" "KC" =
      String.mk ("mahomes".data) ++ "_" ++ lowerStr "QB" ++ "_" ++ lowerStr "KC" :=
  C10_create_player_key.2 ("patrick".data) ("mahomes".data) "QB" "KC"
    (by decide) (by decide) (by decide) (by decide)

end FF
